import Mathlib

/-!
Verification of the PPE object-detection web service
(`src/Web Application/app.py`).

The service is shallowly embedded: the external libraries (cv2, the YOLO
model, base64) are modelled as an environment record of oracle functions
over an abstract image type `Img`, and each FastAPI endpoint becomes a
pure function from the request data, the fresh identifiers it draws
(`uuid.uuid4()` results), the current time, and the current
`detection_history` list, to the HTTP response, the new history list and
the list of file-system writes performed.

Python's exception flow is embedded explicitly.  Both endpoints run their
body inside `try: ... except Exception as e: raise HTTPException(500, str(e))`;
since FastAPI's `HTTPException` is itself a subclass of `Exception`, every
`HTTPException(400, ...)` raised inside the `try` block is caught by that
handler and re-raised as a 500 whose detail is `str(e) = "{status}: {detail}"`.
The embedding reproduces exactly that behaviour.
-/

/-- Bytes of a request body / file, one `Nat` per byte. -/
abbrev Bytes := List Nat

/-- One raw detection as produced by the YOLO model: the `box.xyxy[0]`
coordinates, `box.conf[0]` and `box.cls[0]` of `process_detection`.
Python floats are modelled as rationals (the code only copies and compares
them, it performs no arithmetic on them). -/
structure RawBox where
  x1 : Rat
  y1 : Rat
  x2 : Rat
  y2 : Rat
  conf : Rat
  cls : Nat
deriving DecidableEq

/-- One element `r` of the iterable returned by `model(img)`: its list of
boxes `r.boxes` and its class-id-to-name table `r.names`. -/
structure ModelResult where
  boxes : List RawBox
  names : Nat → String

/-- The external-library environment: cv2, the YOLO model and base64,
treated as oracles over an abstract image type `Img`.
`imdecode` is `cv2.imdecode`, `imread_bytes` is `cv2.imread` applied to a
file that was just written with the given bytes, `model` is the YOLO
call (which may raise, hence `Except`), `rectangle`/`putText` are the
drawing calls, `fmt2` is Python's `f"{confidence:.2f}"` formatting,
`imencode` is `cv2.imencode('.jpg', ...)` (which may fail) and
`b64encode` is `base64.b64encode(...).decode('utf-8')`. -/
structure Env (Img : Type) where
  imdecode : Bytes → Option Img
  imread_bytes : Bytes → Option Img
  model : Img → Except String (List ModelResult)
  rectangle : Img → RawBox → Img
  putText : Img → String → RawBox → Img
  fmt2 : Rat → String
  imencode : Img → Except String Bytes
  b64encode : Bytes → String

/-- A multipart upload as FastAPI hands it to the endpoint:
`file.filename`, `file.content_type` (optional in FastAPI) and the bytes
returned by `await file.read()`. -/
structure UploadedFile where
  filename : String
  content_type : Option String
  contents : Bytes
deriving DecidableEq

/-- `class DetectionBox(BaseModel)` of app.py. -/
structure DetectionBox where
  x1 : Rat
  y1 : Rat
  x2 : Rat
  y2 : Rat
  confidence : Rat
  class_name : String
deriving DecidableEq

/-- `class DetectionResult(BaseModel)` of app.py.  `timestamp` is an
abstract clock tick. -/
structure DetectionResult where
  id : String
  timestamp : Nat
  type : String
  objects : List String
  boxes : List DetectionBox
  imageUrl : Option String := none
  base64_image : Option String := none
deriving DecidableEq

/-- A Python exception as it can be raised inside the endpoints' `try`
blocks: either a `fastapi.HTTPException` with a status code and detail, or
any other exception carrying a message. -/
inductive Exc where
  | http (status : Nat) (detail : String)
  | other (msg : String)
deriving DecidableEq

/-- `str(e)` for an exception: starlette's `HTTPException.__str__` renders
`f"{status_code}: {detail}"`; for other exceptions, the message. -/
def Exc.toMessage : Exc → String
  | .http s d => toString s ++ ": " ++ d
  | .other m => m

/-- The HTTP outcome of an endpoint call: either the 200 JSON body
`{objects, boxes, base64_image}` or an error status with its detail. -/
inductive Response where
  | ok (objects : List String) (boxes : List DetectionBox) (base64_image : String)
  | err (status : Nat) (detail : String)
deriving DecidableEq

/-- `true` exactly on 200 responses. -/
def Response.isOk : Response → Bool
  | .ok _ _ _ => true
  | .err _ _ => false

/-- Python's `str.startswith`, written over the character list so that it
is kernel-computable. -/
def strStartsWith (s p : String) : Bool :=
  p.data.isPrefixOf s.data

/-- The flattened iteration of `process_detection`:
`for r in results: for box in r.boxes:` paired with the resolved class
name `r.names[class_id]`. -/
def rawDetections (results : List ModelResult) : List (RawBox × String) :=
  results.flatMap (fun r => r.boxes.map (fun b => (b, r.names b.cls)))

/-- The `DetectionBox(...)` constructed for one raw detection inside
`process_detection`: the coordinates and confidence are copied verbatim. -/
def toDetectionBox (p : RawBox × String) : DetectionBox :=
  { x1 := p.1.x1, y1 := p.1.y1, x2 := p.1.x2, y2 := p.1.y2,
    confidence := p.1.conf, class_name := p.2 }

/-- `process_detection(img, results)` of app.py: collect the class names
and `DetectionBox`es of every raw detection, draw each box and its
`"{class_name}: {confidence:.2f}"` label onto the image, then JPEG-encode
the annotated image and base64 it.  `cv2.imencode` may fail, in which case
the surrounding endpoint's exception handler takes over. -/
def process_detection {Img : Type} (env : Env Img) (img : Img)
    (results : List ModelResult) :
    Except String (List String × List DetectionBox × String) :=
  let dets := rawDetections results
  let detected_objects := dets.map (fun p => p.2)
  let detection_boxes := dets.map toDetectionBox
  let annotated := dets.foldl
    (fun im p => env.putText (env.rectangle im p.1)
      (p.2 ++ ": " ++ env.fmt2 p.1.conf) p.1) img
  match env.imencode annotated with
  | .error msg => .error msg
  | .ok buffer => .ok (detected_objects, detection_boxes, env.b64encode buffer)

/-- `detection_history = []`: the in-memory history, empty at process
start. -/
def detection_history : List DetectionResult := []

/-- `POST /detect` (`detect_objects` in app.py).  Arguments beyond the
request: `newId` is the `uuid.uuid4()` drawn for the result and `now` the
current time.  Returns the response, the new history and the file-system
writes performed (none on this endpoint).  Every exception raised in
the `try` body — including the `HTTPException(400, "Invalid image format")`
for undecodable bytes — is caught by `except Exception` and surfaces as a
500 whose detail is `str(e)`. -/
def detect_objects {Img : Type} (env : Env Img) (newId : String) (now : Nat)
    (file : UploadedFile) (history : List DetectionResult) :
    Response × List DetectionResult × List (String × Bytes) :=
  match env.imdecode file.contents with
  | none =>
      (Response.err 500 (Exc.toMessage (Exc.http 400 "Invalid image format")),
       history, [])
  | some img =>
    match env.model img with
    | .error m =>
        (Response.err 500 (Exc.toMessage (Exc.other m)), history, [])
    | .ok results =>
      match process_detection env img results with
      | .error m =>
          (Response.err 500 (Exc.toMessage (Exc.other m)), history, [])
      | .ok (detected_objects, detection_boxes, base64_image) =>
        let detection : DetectionResult :=
          { id := newId, timestamp := now, type := "live",
            objects := detected_objects.dedup,
            boxes := detection_boxes,
            imageUrl := none,
            base64_image := some base64_image }
        (Response.ok detection.objects detection.boxes base64_image,
         history ++ [detection], [])

/-- `POST /upload` (`upload_image` in app.py).  `token` and `newId` are
the two `uuid.uuid4()` values drawn (file name token, result id).  The
content-type gate runs first; when it passes, the original bytes are
written to `os.path.join("uploads", f"{token}_{filename}")` BEFORE
`cv2.imread` attempts to decode them.  As in `/detect`, every exception
raised in the `try` body — including the two `HTTPException(400, ...)` —
is caught by `except Exception` and surfaces as a 500 with `str(e)`. -/
def upload_image {Img : Type} (env : Env Img) (token newId : String) (now : Nat)
    (file : UploadedFile) (history : List DetectionResult) :
    Response × List DetectionResult × List (String × Bytes) :=
  match file.content_type with
  | none =>
      (Response.err 500 (Exc.toMessage
        (Exc.other "AttributeError: NoneType object has no attribute startswith")),
       history, [])
  | some ct =>
    match strStartsWith ct "image/" with
    | false =>
      (Response.err 500 (Exc.toMessage (Exc.http 400 "File must be an image")),
       history, [])
    | true =>
      let file_path := "uploads/" ++ (token ++ "_" ++ file.filename)
      let writes := [(file_path, file.contents)]
      match env.imread_bytes file.contents with
      | none =>
          (Response.err 500 (Exc.toMessage (Exc.http 400 "Failed to read image")),
           history, writes)
      | some img =>
        match env.model img with
        | .error m =>
            (Response.err 500 (Exc.toMessage (Exc.other m)), history, writes)
        | .ok results =>
          match process_detection env img results with
          | .error m =>
              (Response.err 500 (Exc.toMessage (Exc.other m)), history, writes)
          | .ok (detected_objects, detection_boxes, base64_image) =>
            let detection : DetectionResult :=
              { id := newId, timestamp := now, type := "upload",
                objects := detected_objects.dedup,
                boxes := detection_boxes,
                imageUrl := some file_path,
                base64_image := some base64_image }
            (Response.ok detection.objects detection.boxes base64_image,
             history ++ [detection], writes)

/-- `GET /history` (`get_history` in app.py): returns the history list as
it stands. -/
def get_history (history : List DetectionResult) : List DetectionResult :=
  history

/-- One incoming request: which endpoint it hits and the uploaded file. -/
inductive Event where
  | detectReq (file : UploadedFile)
  | uploadReq (file : UploadedFile)
deriving DecidableEq

/-- A request together with the per-request nondeterminism: the uuid drawn
for the stored file name (`token`, unused by `/detect`), the uuid drawn
for the result id (`newId`), and the wall-clock time (`now`). -/
structure ReqInput where
  event : Event
  token : String
  newId : String
  now : Nat
deriving DecidableEq

/-- Dispatch one request against the current history. -/
def stepApp {Img : Type} (env : Env Img) (q : ReqInput)
    (history : List DetectionResult) :
    Response × List DetectionResult × List (String × Bytes) :=
  match q.event with
  | .detectReq file => detect_objects env q.newId q.now file history
  | .uploadReq file => upload_image env q.token q.newId q.now file history

/-- The history after serving a sequence of requests. -/
def runApp {Img : Type} (env : Env Img) :
    List ReqInput → List DetectionResult → List DetectionResult
  | [], history => history
  | q :: qs, history => runApp env qs (stepApp env q history).2.1

/-- The responses produced while serving a sequence of requests. -/
def runResponses {Img : Type} (env : Env Img) :
    List ReqInput → List DetectionResult → List Response
  | [], _ => []
  | q :: qs, history =>
      (stepApp env q history).1 :: runResponses env qs (stepApp env q history).2.1

/-! ### Helper lemmas -/

/-- When `process_detection` succeeds, the returned object list is the
class-name projection of the raw detections, the boxes are their verbatim
copies, and the object list equals the class names of the boxes. -/
theorem process_detection_ok {Img : Type} (env : Env Img) (img : Img)
    (results : List ModelResult) (o : List String) (b : List DetectionBox)
    (s : String)
    (hp : process_detection env img results = Except.ok (o, b, s)) :
    o = (rawDetections results).map (fun p => p.2) ∧
    b = (rawDetections results).map toDetectionBox ∧
    o = b.map DetectionBox.class_name := by
  simp only [process_detection] at hp
  split at hp
  · exact absurd hp (by simp)
  · rw [Except.ok.injEq, Prod.mk.injEq, Prod.mk.injEq] at hp
    obtain ⟨ho, hb, _⟩ := hp
    refine ⟨ho.symm, hb.symm, ?_⟩
    rw [← ho, ← hb, List.map_map]
    rfl

/-- Full case analysis of `POST /detect`: either it fails with some error
response and leaves the history untouched (and writes nothing), or the
whole pipeline succeeded and it appends exactly one `live` record. -/
theorem detect_cases {Img : Type} (env : Env Img) (i : String) (t : Nat)
    (f : UploadedFile) (h : List DetectionResult) :
    (∃ st msg, detect_objects env i t f h = (Response.err st msg, h, [])) ∨
    (∃ img results o b s,
      env.imdecode f.contents = some img ∧
      env.model img = Except.ok results ∧
      process_detection env img results = Except.ok (o, b, s) ∧
      detect_objects env i t f h =
        (Response.ok o.dedup b s,
         h ++ [{ id := i, timestamp := t, type := "live", objects := o.dedup,
                 boxes := b, imageUrl := none, base64_image := some s }],
         [])) := by
  unfold detect_objects
  split
  · exact Or.inl ⟨_, _, rfl⟩
  rename_i img hdec
  split
  · exact Or.inl ⟨_, _, rfl⟩
  rename_i results hmod
  split
  · exact Or.inl ⟨_, _, rfl⟩
  rename_i o b s hproc
  exact Or.inr ⟨img, results, o, b, s, hdec, hmod, hproc, rfl⟩

/-- Full case analysis of `POST /upload`: either it fails with some error
response and leaves the history untouched, or the whole pipeline succeeded
and it appends exactly one `upload` record carrying the stored file path. -/
theorem upload_cases {Img : Type} (env : Env Img) (tok i : String) (t : Nat)
    (f : UploadedFile) (h : List DetectionResult) :
    (∃ st msg w, upload_image env tok i t f h = (Response.err st msg, h, w)) ∨
    (∃ img results o b s,
      env.imread_bytes f.contents = some img ∧
      env.model img = Except.ok results ∧
      process_detection env img results = Except.ok (o, b, s) ∧
      upload_image env tok i t f h =
        (Response.ok o.dedup b s,
         h ++ [{ id := i, timestamp := t, type := "upload", objects := o.dedup,
                 boxes := b,
                 imageUrl := some ("uploads/" ++ (tok ++ "_" ++ f.filename)),
                 base64_image := some s }],
         [("uploads/" ++ (tok ++ "_" ++ f.filename), f.contents)])) := by
  unfold upload_image
  split
  · exact Or.inl ⟨_, _, _, rfl⟩
  rename_i ct hctype
  split
  · exact Or.inl ⟨_, _, _, rfl⟩
  split
  · exact Or.inl ⟨_, _, _, rfl⟩
  rename_i img hread
  split
  · exact Or.inl ⟨_, _, _, rfl⟩
  rename_i results hmod
  split
  · exact Or.inl ⟨_, _, _, rfl⟩
  rename_i o b s hproc
  exact Or.inr ⟨img, results, o, b, s, hread, hmod, hproc, rfl⟩

/-- A nonexistent stored-file path is never the empty string. -/
theorem uploads_path_ne_empty (s : String) : ("uploads/" ++ s) ≠ "" := by
  intro hcontra
  have h2 : ("uploads/" ++ s).length = (0 : Nat) := by rw [hcontra]; rfl
  rw [String.length_append] at h2
  have h3 : "uploads/".length = 8 := rfl
  rw [h3] at h2
  omega

/-- Case analysis of one dispatched request: either an error response with
the history untouched, or a 200 response appending exactly one record whose
fields are characterized. -/
theorem stepApp_cases {Img : Type} (env : Env Img) (q : ReqInput)
    (h : List DetectionResult) :
    (∃ st msg, (stepApp env q h).1 = Response.err st msg ∧
      (stepApp env q h).2.1 = h) ∨
    (∃ img results o b s d,
      env.model img = Except.ok results ∧
      process_detection env img results = Except.ok (o, b, s) ∧
      (stepApp env q h).1 = Response.ok o.dedup b s ∧
      (stepApp env q h).2.1 = h ++ [d] ∧
      d.id = q.newId ∧ d.timestamp = q.now ∧ d.objects = o.dedup ∧
      d.boxes = b ∧ d.base64_image = some s ∧
      ((d.type = "live" ∧ d.imageUrl = none) ∨
       (d.type = "upload" ∧ ∃ u, d.imageUrl = some u ∧ u ≠ ""))) := by
  rcases q with ⟨ev, tok, i, t⟩
  cases ev with
  | detectReq f =>
      have hstep : stepApp env ⟨Event.detectReq f, tok, i, t⟩ h
          = detect_objects env i t f h := rfl
      rcases detect_cases env i t f h with
        ⟨st, msg, heq⟩ | ⟨img, results, o, b, s, _, h2, h3, heq⟩
      · exact Or.inl ⟨st, msg, by rw [hstep, heq], by rw [hstep, heq]⟩
      · refine Or.inr ⟨img, results, o, b, s, _, h2, h3,
          by rw [hstep, heq], by rw [hstep, heq], rfl, rfl, rfl, rfl, rfl,
          Or.inl ⟨rfl, rfl⟩⟩
  | uploadReq f =>
      have hstep : stepApp env ⟨Event.uploadReq f, tok, i, t⟩ h
          = upload_image env tok i t f h := rfl
      rcases upload_cases env tok i t f h with
        ⟨st, msg, w, heq⟩ | ⟨img, results, o, b, s, _, h2, h3, heq⟩
      · exact Or.inl ⟨st, msg, by rw [hstep, heq], by rw [hstep, heq]⟩
      · refine Or.inr ⟨img, results, o, b, s, _, h2, h3,
          by rw [hstep, heq], by rw [hstep, heq], rfl, rfl, rfl, rfl, rfl,
          Or.inr ⟨rfl, "uploads/" ++ (tok ++ "_" ++ f.filename), rfl,
            uploads_path_ne_empty _⟩⟩

/-- A request that answered 200 appended exactly one record, carrying the
uuid drawn for it as its `id`. -/
theorem stepApp_ok_append {Img : Type} (env : Env Img) (q : ReqInput)
    (h : List DetectionResult) (hok : (stepApp env q h).1.isOk = true) :
    ∃ d, (stepApp env q h).2.1 = h ++ [d] ∧ d.id = q.newId := by
  rcases stepApp_cases env q h with
    ⟨st, msg, hr, _⟩ | ⟨_, _, _, _, _, d, _, _, _, hh, hid, _⟩
  · rw [hr] at hok; simp [Response.isOk] at hok
  · exact ⟨d, hh, hid⟩

/-- A request that answered with an error left the history untouched. -/
theorem stepApp_err_same {Img : Type} (env : Env Img) (q : ReqInput)
    (h : List DetectionResult) (herr : (stepApp env q h).1.isOk = false) :
    (stepApp env q h).2.1 = h := by
  rcases stepApp_cases env q h with
    ⟨st, msg, hr, hh⟩ | ⟨_, _, _, _, s, d, _, _, hr, _, _⟩
  · exact hh
  · rw [hr] at herr; simp [Response.isOk] at herr

/-- Serving requests only ever appends to the history. -/
theorem runApp_extends {Img : Type} (env : Env Img) :
    ∀ (qs : List ReqInput) (h : List DetectionResult),
      ∃ tail, runApp env qs h = h ++ tail := by
  intro qs
  induction qs with
  | nil => intro h; exact ⟨[], by simp [runApp]⟩
  | cons q qs ih =>
      intro h
      rcases stepApp_cases env q h with
        ⟨st, msg, _, hh⟩ | ⟨_, _, _, _, _, d, _, _, _, hh, _⟩
      · obtain ⟨tail, htail⟩ := ih h
        exact ⟨tail, by rw [runApp, hh]; exact htail⟩
      · obtain ⟨tail, htail⟩ := ih (h ++ [d])
        exact ⟨[d] ++ tail, by rw [runApp, hh, htail, List.append_assoc]⟩

/-- When every response of a run is a 200, the final history is the
initial one followed by exactly one record per request, in request order,
each carrying the uuid drawn for that request. -/
theorem runApp_map_id {Img : Type} (env : Env Img) :
    ∀ (qs : List ReqInput) (h : List DetectionResult),
      (∀ r ∈ runResponses env qs h, r.isOk = true) →
      (runApp env qs h).map DetectionResult.id
        = h.map DetectionResult.id ++ qs.map ReqInput.newId := by
  intro qs
  induction qs with
  | nil => intro h _; simp [runApp]
  | cons q qs ih =>
      intro h hok
      have hhead : (stepApp env q h).1.isOk = true :=
        hok _ (by simp [runResponses])
      have htail : ∀ r ∈ runResponses env qs (stepApp env q h).2.1,
          r.isOk = true := by
        intro r hr
        exact hok r (by simp [runResponses, hr])
      obtain ⟨d, hd, hdid⟩ := stepApp_ok_append env q h hhead
      rw [runApp, ih _ htail, hd]
      simp [hdid]

/-- The ids of the final history form a sublist of the initial ids
followed by the uuids drawn for the requests (error requests append
nothing). -/
theorem runApp_ids_sublist {Img : Type} (env : Env Img) :
    ∀ (qs : List ReqInput) (h : List DetectionResult),
      List.Sublist ((runApp env qs h).map DetectionResult.id)
        (h.map DetectionResult.id ++ qs.map ReqInput.newId) := by
  intro qs
  induction qs with
  | nil => intro h; simp [runApp]
  | cons q qs ih =>
      intro h
      rcases stepApp_cases env q h with
        ⟨st, msg, _, hh⟩ | ⟨_, _, _, _, _, d, _, _, _, hh, hdid, _⟩
      · rw [runApp, hh]
        refine (ih h).trans ?_
        exact List.Sublist.append_left (List.sublist_cons_self _ _) _
      · rw [runApp, hh]
        have hsame : h.map DetectionResult.id ++ (q :: qs).map ReqInput.newId
            = (h ++ [d]).map DetectionResult.id ++ qs.map ReqInput.newId := by
          simp [List.map_append, hdid]
        rw [hsame]
        exact ih (h ++ [d])

/-! ### Concrete test environments (abstract image type instantiated with
`Unit`) used to evaluate the endpoints on explicit inputs. -/

/-- Environment in which no byte string decodes to an image. -/
def envDecodeFail : Env Unit :=
  { imdecode := fun _ => none
    imread_bytes := fun _ => none
    model := fun _ => Except.ok []
    rectangle := fun im _ => im
    putText := fun im _ _ => im
    fmt2 := fun _ => "0.00"
    imencode := fun _ => Except.ok []
    b64encode := fun _ => "" }

/-- Environment in which everything succeeds and the model reports two
detections of the same class (`helmet`) plus one `vest`. -/
def envOk : Env Unit :=
  { imdecode := fun _ => some ()
    imread_bytes := fun _ => some ()
    model := fun _ => Except.ok
      [{ boxes := [{ x1 := 0, y1 := 0, x2 := 10, y2 := 10, conf := 1, cls := 0 },
                   { x1 := 1, y1 := 2, x2 := 30, y2 := 40, conf := 0, cls := 0 },
                   { x1 := 5, y1 := 6, x2 := 7, y2 := 8, conf := 1, cls := 1 }],
         names := fun c => if c = 0 then "helmet" else "vest" }]
    rectangle := fun im _ => im
    putText := fun im _ _ => im
    fmt2 := fun _ => "0.90"
    imencode := fun _ => Except.ok [1, 2, 3]
    b64encode := fun _ => "AQID" }

/-- Environment in which decoding and encoding succeed but the model finds
nothing. -/
def envZero : Env Unit :=
  { imdecode := fun _ => some ()
    imread_bytes := fun _ => some ()
    model := fun _ => Except.ok []
    rectangle := fun im _ => im
    putText := fun im _ _ => im
    fmt2 := fun _ => "0.00"
    imencode := fun _ => Except.ok [9]
    b64encode := fun _ => "CQ==" }

/-- Environment whose model emits a malformed raw detection: swapped
coordinates (`x1 > x2`, `y1 > y2`) and a confidence above 1. -/
def envBadBox : Env Unit :=
  { imdecode := fun _ => some ()
    imread_bytes := fun _ => some ()
    model := fun _ => Except.ok
      [{ boxes := [{ x1 := 2, y1 := 5, x2 := 1, y2 := 3, conf := 2, cls := 0 }],
         names := fun _ => "helmet" }]
    rectangle := fun im _ => im
    putText := fun im _ _ => im
    fmt2 := fun _ => "2.00"
    imencode := fun _ => Except.ok [1]
    b64encode := fun _ => "AQ==" }

/-- A request body whose bytes are not a decodable image. -/
def fileBad : UploadedFile :=
  { filename := "bad.bin", content_type := some "image/jpeg",
    contents := [104, 105] }

/-- A text upload declaring `content-type: text/plain`. -/
def fileTextPlain : UploadedFile :=
  { filename := "notes.txt", content_type := some "text/plain",
    contents := [104, 105] }

/-- A well-formed image upload. -/
def fileImg : UploadedFile :=
  { filename := "a.jpg", content_type := some "image/jpeg",
    contents := [1, 2, 3] }

/-- A `/detect` request input for the witnesses. -/
def qDetect : ReqInput :=
  { event := Event.detectReq fileImg, token := "t1", newId := "id1", now := 3 }

/-- An `/upload` request input for the witnesses. -/
def qUpload : ReqInput :=
  { event := Event.uploadReq fileImg, token := "t2", newId := "id2", now := 4 }

/-! ### The claims -/

/-- C1: the spec claims that a `POST /detect` whose body is not a
decodable image fails with HTTP 400 and appends nothing to the history.
The no-append half is true, but the status is wrong: the
`HTTPException(400, "Invalid image format")` raised inside the `try` block
is caught by the endpoint's own `except Exception` handler and re-raised
as a 500 whose detail is `str(e) = "400: Invalid image format"`.  This
theorem evaluates the endpoint at such an input: status 500, history
unchanged, no file written. -/
theorem C1_detect_undecodable_gives_500_not_400 :
    detect_objects envDecodeFail "id0" 0 fileBad detection_history
      = (Response.err 500 "400: Invalid image format", [], []) ∧
    (500 : Nat) ≠ 400 := by
  constructor
  · rfl
  · decide

/-- C2: the spec claims that a `POST /upload` declaring a non-`image/`
content type fails with HTTP 400 before any file is written, mentioning
"must be an image", with the history unchanged.  Everything holds except
the status: the `HTTPException(400, "File must be an image")` is caught by
the endpoint's `except Exception` handler and re-raised as a 500 with
detail `"400: File must be an image"`.  This theorem evaluates the
endpoint at such an input: status 500 (detail still mentioning "must be an
image"), history unchanged, and the write list empty (the failure happens
before the file save). -/
theorem C2_upload_bad_content_type_gives_500_not_400 :
    upload_image envDecodeFail "tok" "id0" 0 fileTextPlain detection_history
      = (Response.err 500 "400: File must be an image", [], []) ∧
    (500 : Nat) ≠ 400 := by
  constructor
  · rfl
  · decide

/-- C3: every `DetectionResult` produced by either endpoint (i.e. every
record a request newly appends to the history) has a duplicate-free
`objects` list whose members are exactly the `class_name` values of its
`boxes`. -/
theorem C3_objects_are_dedup_of_box_class_names {Img : Type} (env : Env Img)
    (q : ReqInput) (h : List DetectionResult) (d : DetectionResult)
    (hmem : d ∈ (stepApp env q h).2.1) (hnew : d ∉ h) :
    d.objects.Nodup ∧
    ∀ c, c ∈ d.objects ↔ c ∈ d.boxes.map DetectionBox.class_name := by
  rcases stepApp_cases env q h with
    ⟨st, msg, _, hh⟩ |
    ⟨img, results, o, b, s, d0, _, hproc, _, hh, _, _, hobj, hbox, _, _⟩
  · rw [hh] at hmem
    exact absurd hmem hnew
  · rw [hh] at hmem
    rcases List.mem_append.mp hmem with hmem | hmem
    · exact absurd hmem hnew
    · have hd : d = d0 := List.mem_singleton.mp hmem
      subst hd
      obtain ⟨_, _, ho3⟩ := process_detection_ok env img results o b s hproc
      rw [hobj, hbox]
      refine ⟨List.nodup_dedup o, ?_⟩
      intro c
      rw [List.mem_dedup, ho3]

/-- The record `/detect` appends in the environment `envOk` on history
`[]`: two `helmet` detections collapse to one entry in `objects`. -/
def dOk : DetectionResult :=
  { id := "id1", timestamp := 3, type := "live",
    objects := ["helmet", "vest"],
    boxes :=
      [{ x1 := 0, y1 := 0, x2 := 10, y2 := 10, confidence := 1,
         class_name := "helmet" },
       { x1 := 1, y1 := 2, x2 := 30, y2 := 40, confidence := 0,
         class_name := "helmet" },
       { x1 := 5, y1 := 6, x2 := 7, y2 := 8, confidence := 1,
         class_name := "vest" }],
    imageUrl := none, base64_image := some "AQID" }

/-- Witness for C3 at a concrete input with duplicate class names. -/
theorem C3_witness :
    dOk.objects.Nodup ∧
    ∀ c, c ∈ dOk.objects ↔ c ∈ dOk.boxes.map DetectionBox.class_name :=
  C3_objects_are_dedup_of_box_class_names envOk qDetect [] dOk
    (by decide) (by decide)

/-- C4: the history starts empty at process start, serving requests only
ever appends (nothing is removed or reordered), and after a run in which
every request succeeded, `GET /history` returns exactly one entry per
request, in submission order (each entry carrying the uuid drawn for its
request). -/
theorem C4_history_append_only_in_order {Img : Type} (env : Env Img)
    (qs : List ReqInput)
    (hok : ∀ r ∈ runResponses env qs detection_history, r.isOk = true) :
    detection_history = ([] : List DetectionResult) ∧
    (∀ (qs2 : List ReqInput) (h2 : List DetectionResult),
       ∃ tail, runApp env qs2 h2 = h2 ++ tail) ∧
    (get_history (runApp env qs detection_history)).length = qs.length ∧
    (get_history (runApp env qs detection_history)).map DetectionResult.id
      = qs.map ReqInput.newId := by
  refine ⟨rfl, runApp_extends env, ?_, ?_⟩
  · have hmap := runApp_map_id env qs detection_history hok
    have hlen := congrArg List.length hmap
    simp only [detection_history, List.map_nil, List.nil_append,
      List.length_map] at hlen
    simpa [get_history] using hlen
  · have hmap := runApp_map_id env qs detection_history hok
    simpa [get_history, detection_history] using hmap

/-- Witness for C4: a concrete two-request run (one `/detect`, one
`/upload`) in which both requests succeed. -/
theorem C4_witness :
    detection_history = ([] : List DetectionResult) ∧
    (∀ (qs2 : List ReqInput) (h2 : List DetectionResult),
       ∃ tail, runApp envOk qs2 h2 = h2 ++ tail) ∧
    (get_history (runApp envOk [qDetect, qUpload] detection_history)).length
      = [qDetect, qUpload].length ∧
    (get_history (runApp envOk [qDetect, qUpload] detection_history)).map
        DetectionResult.id = [qDetect, qUpload].map ReqInput.newId :=
  C4_history_append_only_in_order envOk [qDetect, qUpload] (by decide)

/-- C5: if the uuids drawn for the requests of a run are pairwise distinct
(the contract of `uuid.uuid4()` freshness), then the `id` fields of the
history entries are pairwise distinct — even when some requests fail and
append nothing. -/
theorem C5_history_ids_unique {Img : Type} (env : Env Img)
    (qs : List ReqInput) (hids : (qs.map ReqInput.newId).Nodup) :
    ((get_history (runApp env qs detection_history)).map
      DetectionResult.id).Nodup := by
  have hsub := runApp_ids_sublist env qs detection_history
  simp only [detection_history, List.map_nil, List.nil_append] at hsub
  exact List.Nodup.sublist
    (by simpa [get_history, detection_history] using hsub) hids

/-- Witness for C5 on the concrete two-request run. -/
theorem C5_witness :
    ((get_history (runApp envOk [qDetect, qUpload] detection_history)).map
      DetectionResult.id).Nodup :=
  C5_history_ids_unique envOk [qDetect, qUpload] (by decide)

/-- If every model result has an empty box list, there are no raw
detections. -/
theorem rawDetections_nil (results : List ModelResult)
    (hb : ∀ r ∈ results, r.boxes = []) : rawDetections results = [] := by
  induction results with
  | nil => rfl
  | cons r rs ih =>
      have h1 : r.boxes = [] := hb r (by simp)
      have h2 := ih (fun x hx => hb x (by simp [hx]))
      simp only [rawDetections, List.flatMap_cons, h1, List.map_nil,
        List.nil_append]
      simpa [rawDetections] using h2

/-- With zero raw detections, `process_detection` returns empty object and
box lists and encodes the unmodified image. -/
theorem process_detection_zero {Img : Type} (env : Env Img) (img : Img)
    (results : List ModelResult) (buf : Bytes)
    (hb : ∀ r ∈ results, r.boxes = [])
    (henc : env.imencode img = Except.ok buf) :
    process_detection env img results
      = Except.ok ([], [], env.b64encode buf) := by
  have h0 := rawDetections_nil results hb
  simp [process_detection, h0, henc]

/-- C6: on a successful request for which the model reports zero raw
detections, both endpoints answer with `objects = []` and `boxes = []`
and append exactly one record to the history. -/
theorem C6_zero_detections_empty_lists {Img : Type} (env : Env Img)
    (tok i : String) (t : Nat) (f : UploadedFile)
    (h : List DetectionResult) (img : Img) (results : List ModelResult)
    (buf : Bytes) (ct : String) :
    (env.imdecode f.contents = some img →
     env.model img = Except.ok results →
     (∀ r ∈ results, r.boxes = []) →
     env.imencode img = Except.ok buf →
     detect_objects env i t f h =
       (Response.ok [] [] (env.b64encode buf),
        h ++ [{ id := i, timestamp := t, type := "live", objects := [],
                boxes := [], imageUrl := none,
                base64_image := some (env.b64encode buf) }], [])) ∧
    (f.content_type = some ct →
     strStartsWith ct "image/" = true →
     env.imread_bytes f.contents = some img →
     env.model img = Except.ok results →
     (∀ r ∈ results, r.boxes = []) →
     env.imencode img = Except.ok buf →
     upload_image env tok i t f h =
       (Response.ok [] [] (env.b64encode buf),
        h ++ [{ id := i, timestamp := t, type := "upload", objects := [],
                boxes := [],
                imageUrl := some ("uploads/" ++ (tok ++ "_" ++ f.filename)),
                base64_image := some (env.b64encode buf) }],
        [("uploads/" ++ (tok ++ "_" ++ f.filename), f.contents)])) := by
  constructor
  · intro h1 h2 h3 h4
    have hp := process_detection_zero env img results buf h3 h4
    simp [detect_objects, h1, h2, hp]
  · intro hct hsw h1 h2 h3 h4
    have hp := process_detection_zero env img results buf h3 h4
    simp [upload_image, hct, hsw, h1, h2, hp]

/-- Witness for C6: a concrete environment whose model finds nothing; both
endpoints return empty lists and the history grows from 0 to 1 entry. -/
theorem C6_witness :
    detect_objects envZero "id1" 3 fileImg []
      = (Response.ok [] [] "CQ==",
         [{ id := "id1", timestamp := 3, type := "live", objects := [],
            boxes := [], imageUrl := none, base64_image := some "CQ==" }],
         []) ∧
    upload_image envZero "t2" "id2" 4 fileImg []
      = (Response.ok [] [] "CQ==",
         [{ id := "id2", timestamp := 4, type := "upload", objects := [],
            boxes := [],
            imageUrl := some ("uploads/" ++ ("t2" ++ "_" ++ fileImg.filename)),
            base64_image := some "CQ==" }],
         [("uploads/" ++ ("t2" ++ "_" ++ fileImg.filename),
           fileImg.contents)]) :=
  ⟨(C6_zero_detections_empty_lists envZero "t0" "id1" 3 fileImg [] () [] [9]
      "image/jpeg").1 rfl rfl (by decide) rfl,
   (C6_zero_detections_empty_lists envZero "t2" "id2" 4 fileImg [] () [] [9]
      "image/jpeg").2 rfl (by decide) rfl rfl (by decide) rfl⟩

/-- Every raw detection comes from some model result's box paired with its
resolved class name. -/
theorem mem_rawDetections (results : List ModelResult) (p : RawBox × String)
    (hp : p ∈ rawDetections results) :
    ∃ mr ∈ results, ∃ rb ∈ mr.boxes, p = (rb, mr.names rb.cls) := by
  simp only [rawDetections, List.mem_flatMap, List.mem_map] at hp
  obtain ⟨mr, hmr, rb, hrb, hpe⟩ := hp
  exact ⟨mr, hmr, rb, hrb, hpe.symm⟩

/-- The malformed box the code stores verbatim in the environment
`envBadBox`: swapped coordinates and a confidence of 2. -/
def bxBad : DetectionBox :=
  { x1 := 2, y1 := 5, x2 := 1, y2 := 3, confidence := 2,
    class_name := "helmet" }

/-- The record `/detect` appends in `envBadBox` on history `[]`. -/
def dBad : DetectionResult :=
  { id := "id1", timestamp := 3, type := "live", objects := ["helmet"],
    boxes := [bxBad], imageUrl := none, base64_image := some "AQ==" }

/-- C7 fails as stated: the code performs no validation of the model's
raw detections, so when the model emits a detection with `x1 > x2`,
`y1 > y2` or a confidence outside `[0, 1]`, the stored `DetectionBox`
violates the claimed invariant.  Concretely, a raw detection
`(x1, y1, x2, y2, conf) = (2, 5, 1, 3, 2)` is stored unchanged. -/
theorem C7_counterexample_unvalidated_box :
    dBad ∈ (stepApp envBadBox qDetect []).2.1 ∧
    bxBad ∈ dBad.boxes ∧
    ¬ (bxBad.x1 ≤ bxBad.x2 ∧ bxBad.y1 ≤ bxBad.y2 ∧
       0 ≤ bxBad.confidence ∧ bxBad.confidence ≤ 1) := by
  refine ⟨by decide, by decide, ?_⟩
  intro hcon
  obtain ⟨h1, _, _, _⟩ := hcon
  revert h1
  decide

/-- C7 amended: the stored boxes copy the model's coordinates and
confidence verbatim, so IF every raw detection the model returns satisfies
`x1 ≤ x2`, `y1 ≤ y2` and `confidence ∈ [0, 1]` (as the YOLO `xyxy`/`conf`
convention provides), THEN every `DetectionBox` in a stored or returned
result satisfies the same bounds. -/
theorem C7_amended_box_invariant {Img : Type} (env : Env Img) (q : ReqInput)
    (h : List DetectionResult)
    (hraw : ∀ (im : Img) (res : List ModelResult),
      env.model im = Except.ok res → ∀ mr ∈ res, ∀ rb ∈ mr.boxes,
        rb.x1 ≤ rb.x2 ∧ rb.y1 ≤ rb.y2 ∧ 0 ≤ rb.conf ∧ rb.conf ≤ 1) :
    ∀ d ∈ (stepApp env q h).2.1, d ∈ h ∨
      ∀ bx ∈ d.boxes, bx.x1 ≤ bx.x2 ∧ bx.y1 ≤ bx.y2 ∧
        0 ≤ bx.confidence ∧ bx.confidence ≤ 1 := by
  intro d hd
  rcases stepApp_cases env q h with
    ⟨st, msg, _, hh⟩ |
    ⟨img, results, o, b, s, d0, hmod, hproc, _, hh, _, _, _, hbox, _, _⟩
  · rw [hh] at hd
    exact Or.inl hd
  · rw [hh] at hd
    rcases List.mem_append.mp hd with hd | hd
    · exact Or.inl hd
    · right
      have hde : d = d0 := List.mem_singleton.mp hd
      subst hde
      intro bx hbx
      rw [hbox] at hbx
      obtain ⟨_, hb2, _⟩ := process_detection_ok env img results o b s hproc
      rw [hb2] at hbx
      obtain ⟨p, hp, hpe⟩ := List.mem_map.mp hbx
      obtain ⟨mr, hmr, rb, hrb, hpp⟩ := mem_rawDetections results p hp
      have hgood := hraw img results hmod mr hmr rb hrb
      subst hpe
      rw [hpp]
      simpa [toDetectionBox] using hgood

/-- Witness for the amended C7: in `envOk` the model only emits
well-formed detections, and the concrete record `/detect` appends has
every box within bounds. -/
theorem C7_witness :
    dOk ∈ ([] : List DetectionResult) ∨
    ∀ bx ∈ dOk.boxes, bx.x1 ≤ bx.x2 ∧ bx.y1 ≤ bx.y2 ∧
      0 ≤ bx.confidence ∧ bx.confidence ≤ 1 :=
  C7_amended_box_invariant envOk qDetect []
    (fun im res hres => by
      simp only [envOk] at hres
      injection hres with hres2
      subst hres2
      decide)
    dOk (by decide)

/-- `/detect` never writes to the file system, on any path. -/
theorem detect_writes_nil {Img : Type} (env : Env Img) (i : String) (t : Nat)
    (f : UploadedFile) (h : List DetectionResult) :
    (detect_objects env i t f h).2.2 = [] := by
  unfold detect_objects
  split
  · rfl
  split
  · rfl
  split
  · rfl
  rfl

/-- Every history entry reachable from a history whose entries satisfy the
`imageUrl`/`type` correspondence keeps satisfying it: `/detect` appends
`live` records with no `imageUrl`, `/upload` appends `upload` records with
a non-empty one. -/
theorem runApp_imageUrl {Img : Type} (env : Env Img) :
    ∀ (qs : List ReqInput) (h : List DetectionResult),
      (∀ d ∈ h, ((∃ u, d.imageUrl = some u ∧ u ≠ "") ↔ d.type = "upload")) →
      ∀ d ∈ runApp env qs h,
        ((∃ u, d.imageUrl = some u ∧ u ≠ "") ↔ d.type = "upload") := by
  intro qs
  induction qs with
  | nil =>
      intro h hh d hd
      exact hh d hd
  | cons q qs ih =>
      intro h hh d hd
      rw [runApp] at hd
      refine ih _ ?_ d hd
      intro d2 hd2
      rcases stepApp_cases env q h with
        ⟨st, msg, _, hhist⟩ |
        ⟨_, _, o, b, s, d0, _, _, _, hhist, _, _, _, _, _, hty⟩
      · rw [hhist] at hd2
        exact hh d2 hd2
      · rw [hhist] at hd2
        rcases List.mem_append.mp hd2 with hd2 | hd2
        · exact hh d2 hd2
        · have hde : d2 = d0 := List.mem_singleton.mp hd2
          subst hde
          rcases hty with ⟨hty, hurl⟩ | ⟨hty, u, hurl, hne⟩
          · constructor
            · rintro ⟨u, hu, _⟩
              rw [hurl] at hu
              exact absurd hu (by simp)
            · intro hup
              rw [hty] at hup
              exact absurd hup (by decide)
          · exact ⟨fun _ => hty, fun _ => ⟨u, hurl, hne⟩⟩

/-- C8: `/detect` performs no file-system write and its appended records
have `type = "live"` and no `imageUrl`; `/upload`, once the content-type
gate passes, writes exactly the original bytes to
`uploads/{token}_{filename}` — and has already done so even when the
saved file then fails to decode, i.e. the write happens before decoding;
and across any run started from the empty history, a record carries a
non-empty `imageUrl` if and only if its type is `upload`. -/
theorem C8_imageUrl_iff_upload {Img : Type} (env : Env Img)
    (qs : List ReqInput) (tok i ct : String) (t : Nat) (f : UploadedFile)
    (h : List DetectionResult) :
    (detect_objects env i t f h).2.2 = [] ∧
    (∀ d ∈ (detect_objects env i t f h).2.1,
       d ∈ h ∨ (d.type = "live" ∧ d.imageUrl = none)) ∧
    (f.content_type = some ct → strStartsWith ct "image/" = true →
       (upload_image env tok i t f h).2.2
         = [("uploads/" ++ (tok ++ "_" ++ f.filename), f.contents)]) ∧
    (f.content_type = some ct → strStartsWith ct "image/" = true →
       env.imread_bytes f.contents = none →
       upload_image env tok i t f h
         = (Response.err 500 "400: Failed to read image", h,
            [("uploads/" ++ (tok ++ "_" ++ f.filename), f.contents)])) ∧
    (∀ d ∈ runApp env qs detection_history,
       ((∃ u, d.imageUrl = some u ∧ u ≠ "") ↔ d.type = "upload")) := by
  refine ⟨detect_writes_nil env i t f h, ?_, ?_, ?_, ?_⟩
  · intro d hd
    rcases detect_cases env i t f h with
      ⟨st, msg, heq⟩ | ⟨img, results, o, b, s, _, _, _, heq⟩
    · rw [heq] at hd
      exact Or.inl hd
    · rw [heq] at hd
      rcases List.mem_append.mp hd with hd | hd
      · exact Or.inl hd
      · have hde := List.mem_singleton.mp hd
        subst hde
        exact Or.inr ⟨rfl, rfl⟩
  · intro hct hsw
    simp only [upload_image, hct, hsw]
    split
    · rfl
    split
    · rfl
    split
    · rfl
    rfl
  · intro hct hsw hread
    simp only [upload_image, hct, hsw, hread]
    rfl
  · refine runApp_imageUrl env qs detection_history ?_
    intro d hd
    simp [detection_history] at hd

/-- Witness for C8 in an environment where the saved upload fails to
decode: the write list already contains the stored file even though the
request errors, and a failed run leaves the empty history empty. -/
theorem C8_witness :
    (detect_objects envDecodeFail "id1" 3 fileImg []).2.2 = [] ∧
    (∀ d ∈ (detect_objects envDecodeFail "id1" 3 fileImg []).2.1,
       d ∈ ([] : List DetectionResult) ∨
       (d.type = "live" ∧ d.imageUrl = none)) ∧
    (fileImg.content_type = some "image/jpeg" →
       strStartsWith "image/jpeg" "image/" = true →
       (upload_image envDecodeFail "t2" "id2" 4 fileImg []).2.2
         = [("uploads/" ++ ("t2" ++ "_" ++ fileImg.filename),
             fileImg.contents)]) ∧
    (fileImg.content_type = some "image/jpeg" →
       strStartsWith "image/jpeg" "image/" = true →
       envDecodeFail.imread_bytes fileImg.contents = none →
       upload_image envDecodeFail "t2" "id2" 4 fileImg []
         = (Response.err 500 "400: Failed to read image", [],
            [("uploads/" ++ ("t2" ++ "_" ++ fileImg.filename),
              fileImg.contents)])) ∧
    (∀ d ∈ runApp envDecodeFail [qUpload] detection_history,
       ((∃ u, d.imageUrl = some u ∧ u ≠ "") ↔ d.type = "upload")) :=
  C8_imageUrl_iff_upload envDecodeFail [qUpload] "t2" "id2" "image/jpeg" 4
    fileImg []

/-- C9: a request that ends in an error response — whatever stage failed:
content-type gate, decoding, inference or encoding — leaves the history
exactly as it was; the history mutates only on the success path, where it
gains exactly the one new record. -/
theorem C9_error_leaves_history_unchanged {Img : Type} (env : Env Img)
    (q : ReqInput) (h : List DetectionResult) :
    ((stepApp env q h).1.isOk = false → (stepApp env q h).2.1 = h) ∧
    ((stepApp env q h).1.isOk = true →
       ∃ d, (stepApp env q h).2.1 = h ++ [d]) := by
  constructor
  · exact stepApp_err_same env q h
  · intro hok
    obtain ⟨d, hd, _⟩ := stepApp_ok_append env q h hok
    exact ⟨d, hd⟩

/-- A `/detect` request whose bytes cannot be decoded. -/
def qBadDetect : ReqInput :=
  { event := Event.detectReq fileBad, token := "t0", newId := "id0", now := 0 }

/-- Witness for C9: a failing request leaves the empty history empty; a
succeeding one appends exactly one record. -/
theorem C9_witness :
    (stepApp envDecodeFail qBadDetect []).2.1
      = ([] : List DetectionResult) ∧
    ∃ d, (stepApp envOk qDetect []).2.1 = [] ++ [d] :=
  ⟨(C9_error_leaves_history_unchanged envDecodeFail qBadDetect []).1
      (by decide),
   (C9_error_leaves_history_unchanged envOk qDetect []).2 (by decide)⟩

/-- C10: every 200 response carries a `base64_image` string, and the
record appended for it stores that same string as `some _` — never
`none` — including when zero objects were detected; there is no way to
opt out of the rendering/encoding step. -/
theorem C10_base64_always_present {Img : Type} (env : Env Img)
    (q : ReqInput) (h : List DetectionResult) (o : List String)
    (b : List DetectionBox) (s : String)
    (hres : (stepApp env q h).1 = Response.ok o b s) :
    ∃ d, (stepApp env q h).2.1 = h ++ [d] ∧ d.base64_image = some s ∧
      d.base64_image ≠ none := by
  rcases stepApp_cases env q h with
    ⟨st, msg, hr, _⟩ |
    ⟨img, results, o2, b2, s2, d0, _, _, hr, hh, _, _, _, _, hb64, _⟩
  · rw [hr] at hres
    exact Response.noConfusion hres
  · rw [hr] at hres
    injection hres with h1 h2 h3
    subst h3
    exact ⟨d0, hh, hb64, by rw [hb64]; simp⟩

/-- Witness for C10 on a zero-detection success: the response and the
stored record both carry the encoded annotated image. -/
theorem C10_witness :
    ∃ d, (stepApp envZero qDetect []).2.1 = [] ++ [d] ∧
      d.base64_image = some "CQ==" ∧ d.base64_image ≠ none :=
  C10_base64_always_present envZero qDetect [] [] [] "CQ==" (by decide)
